import Mathlib

/-!
Shallow embedding of the `anni-provider-od` crate (`src/lib.rs`, `src/mp3.rs`):
a OneDrive-backed audio provider for the Anni media server.

Modelling conventions:
* Rust `&str`/`String` values are modelled as `List Char` (every string this
  crate manipulates is ASCII, so byte indices and character indices agree);
* machine integers (`u64`, `usize`, `i64`) are `Nat`/`Int` with explicit
  `2 ^ 64` bounds where Rust overflow behaviour matters;
* fallible backend calls (HTTP exchanges, item lookups, the stream probe) are
  explicit functional parameters returning `Except`, so each provider method
  becomes a pure function of its inputs and of the backend's responses;
* a Rust `unwrap()`/`expect()` on a value that can be `None` is modelled by an
  explicit `panicked` outcome, distinguishing crashes from recoverable errors.
-/

namespace AnniOd

/-- Rust string, modelled as a list of characters (ASCII throughout this crate). -/
abbrev Str := List Char

/-- Coercion from a Lean string literal to the `Str` model. -/
def str (s : String) : Str := s.data

/-- Rust `str::split_once(c)`: splits around the first occurrence of `c`,
returning `none` when `c` does not occur. -/
def splitOnce (c : Char) : Str → Option (Str × Str)
  | [] => none
  | x :: xs =>
    if x = c then some ([], xs)
    else (splitOnce c xs).map (fun p => (x :: p.1, p.2))

/-- Rust `str::split(c)`: the list of (possibly empty) segments between
occurrences of `c`.  `"".split(c) = [""]`, matching Rust. -/
def splitChar (c : Char) : Str → List Str
  | [] => [[]]
  | x :: xs =>
    if x = c then [] :: splitChar c xs
    else
      match splitChar c xs with
      | h :: t => (x :: h) :: t
      | [] => [[x]]

/-- The optional leading `'+'` sign accepted by Rust's unsigned integer
parsing (`u64::from_str`). -/
def stripPlus (s : Str) : Str :=
  match s with
  | c :: rest => if c = '+' then rest else s
  | [] => s

/-- Numeric value of a digit character. -/
def charVal (c : Char) : Nat := c.toNat - 48

/-- Accumulated decimal value of a digit string (Rust's parsing loop). -/
def valFold (s : Str) : Nat := s.foldl (fun acc c => acc * 10 + charVal c) 0

/-- Rust `str::parse::<u64>()`: an optional `'+'`, then at least one digit,
all digits, and the value must fit in 64 bits (Rust reports overflow as a
parse error; since the accumulator is monotone this is equivalent to the
final value fitting). -/
def parseU64 (s : Str) : Option Nat :=
  let digits := stripPlus s
  if digits ≠ [] ∧ digits.all Char.isDigit ∧ valFold digits < 2 ^ 64
  then some (valFold digits) else none

/-- `anni_provider::Range` (fixed external contract, spec §3):
`start` inclusive offset, optional inclusive `end` (field renamed `ending`
here because `end` is a Lean keyword), optional `total` resource size. -/
structure Range where
  start : Nat
  ending : Option Nat
  total : Option Nat
deriving DecidableEq

/-- `Range::FULL`: the sentinel "entire resource" value. -/
def Range.FULL : Range := { start := 0, ending := none, total := none }

/-- `content_range_to_range` (src/lib.rs lines 382-406): defensively parses an
optional `Content-Range` confirmation header.  Absent or too-short (`≤ 6`
characters, the length of the `bytes ` unit prefix) headers yield
`Range::FULL`; otherwise the first 6 characters are stripped, the remainder is
split once on `'-'` (defaulting to `(whole, "")`), the rest once on `'/'`
(same default), and each numeric field defaults independently on parse
failure: `start` to `0`, `ending` and `total` to `none`. -/
def content_range_to_range (contentRange : Option Str) : Range :=
  match contentRange with
  | none => Range.FULL
  | some s =>
    if s.length ≤ 6 then Range.FULL
    else
      let s' := s.drop 6
      let p1 := (splitOnce '-' s').getD (s', [])
      let p2 := (splitOnce '/' p1.2).getD (p1.2, [])
      { start := (parseU64 p1.1).getD 0
        ending := parseU64 p2.1
        total := parseU64 p2.2 }

/-- Fuel-driven decimal printer core (fuel strictly exceeds the number). -/
def toDecCore : Nat → Nat → Str
  | 0, _ => []
  | fuel + 1, n =>
    if n < 10 then [Nat.digitChar n]
    else toDecCore fuel (n / 10) ++ [Nat.digitChar (n % 10)]

/-- Decimal rendering of a natural number, as Rust's `Display` for integers
(used by `format!` in the path formatters and by the backend's headers). -/
def toDec (n : Nat) : Str := toDecCore (n + 1) n

/-- `format_audio_path` (src/lib.rs lines 414-426).  Disc and track ids are
`NonZeroU8` in Rust, modelled as `Nat`; `Display` prints them in decimal. -/
def format_audio_path (base albumId : Str) (discId trackId : Nat) (ext : Str) : Str :=
  if base = [] then
    '/' :: albumId ++ '/' :: toDec discId ++ '/' :: toDec trackId ++ '.' :: ext
  else
    '/' :: base ++ '/' :: albumId ++ '/' :: toDec discId ++ '/' :: toDec trackId ++ '.' :: ext

/-- `format_cover_path` (src/lib.rs lines 428-438). -/
def format_cover_path (base albumId : Str) (discId : Option Nat) : Str :=
  let path :=
    match discId with
    | some id => '/' :: albumId ++ '/' :: toDec id ++ '/' :: str "cover.jpg"
    | none => '/' :: albumId ++ '/' :: str "cover.jpg"
  if base = [] then path else '/' :: base ++ path

/-- `onedrive_api::resource::DriveItem`, restricted to the fields this crate
reads.  All fields are `Option` in Rust.  `parentPath` models
`parent_reference?["path"].as_str()`: the outer `Option` is the
`parent_reference` field itself, the inner one is the presence of a string
`"path"` key inside it.  `audioMeta` models `audio` / `audio["duration"]` /
`.as_u64()` the same way: the outer `Option` is the `audio` facet, the middle
one the `"duration"` key, the inner one a successful `as_u64` conversion.
`size` is `Option<i64>` in Rust, hence `Option Int`. -/
structure DriveItem where
  name : Option Str
  parentPath : Option (Option Str)
  downloadUrl : Option Str
  size : Option Int
  audioMeta : Option (Option (Option Nat))
deriving DecidableEq

/-- Rust `size as usize` on a 64-bit target: a wrapping cast from `i64`. -/
def usizeOfI64 (i : Int) : Nat := (i % (2 : Int) ^ 64).toNat

/-- The per-entry parent-path extraction of `reload_albums` (src/lib.rs lines
229-234): `path.split('/').skip_while(|c| *c != "root:").skip(1).collect::<String>()`.
Note that `collect::<String>()` concatenates the remaining segments with no
separator between them. -/
def parentOf (p : Str) : Str :=
  (((splitChar '/' p).dropWhile (fun seg => seg ≠ str "root:")).drop 1).flatten

/-- `OneDriveProvider::reload_albums` (src/lib.rs lines 221-241), as the
association list fed into the `albums` `HashMap` (`album name ↦ parent path`):
entries whose `name` is absent, whose `parent_reference` is absent, or whose
`"path"` key is missing or not a string are silently skipped
(`filter_map` with `?`). -/
def reloadAlbums (items : List DriveItem) : List (Str × Str) :=
  items.filterMap (fun item => do
    let n ← item.name
    let pr ← item.parentPath
    let p ← pr
    pure (n, parentOf p))

/-- `HashMap::get` on the albums map, modelled on the association list. -/
def alookup (l : List (Str × Str)) (k : Str) : Option Str :=
  (l.find? (fun p => p.1 = k)).map Prod.snd

/-- `ItemLocation::from_path` (external `onedrive_api` constructor).
Modelled from the spec: path construction can fail (`InvalidPath` "if the
path cannot be constructed", §4.5); every path this crate builds starts with
a separator, and the model accepts exactly the nonempty paths that do. -/
def itemLocationFromPath (p : Str) : Option Str :=
  match p with
  | '/' :: _ => some p
  | _ => none

/-- The optional `end` numeral of a range expression (empty when absent). -/
def endingStr : Option Nat → Str
  | some e => toDec e
  | none => []

/-- `start-[end]` body shared by the emitted range header and its echo. -/
def rangeBody (r : Range) : Str :=
  toDec r.start ++ '-' :: endingStr r.ending

/-- `Range::to_range_header` (external `anni_provider` method).
Modelled from the spec: "omit entirely for FULL; otherwise emit a standard
byte-range expression `start-`[`end`]" (§4.4), the standard partial-content
request header being `bytes=start-[end]` (§6). -/
def toRangeHeader (r : Range) : Option Str :=
  if r = Range.FULL then none
  else some ('b' :: 'y' :: 't' :: 'e' :: 's' :: '=' :: rangeBody r)

/-- The `anni_provider::ProviderError` variants this crate produces.
`generalError` is the image of `Error::OneDriveError` under
`From<Error> for ProviderError` (src/lib.rs lines 362-369); `requestError`
models the `From<reqwest::Error>` conversion applied by `?` on `req.send()`. -/
inductive PErr where
  | fileNotFound
  | invalidPath
  | generalError
  | requestError
  | decodeError
deriving DecidableEq

/-- Outcome of a Rust function that may also crash: `ok`/`err` mirror
`Result`, `panicked` marks an `unwrap()`/`expect()` on a missing value. -/
inductive POutcome (α : Type) where
  | ok (a : α)
  | err (e : PErr)
  | panicked
deriving DecidableEq

/-- `AudioInfo` plus the negotiated range of an `AudioResourceReader`
(the byte stream itself is not modelled). -/
structure AudioOut where
  extn : Str
  size : Nat
  duration : Nat
  range : Range
deriving DecidableEq

/-- `OneDriveProvider::file_url` (src/lib.rs lines 244-250): look the item up,
require its `download_url` (`FileNotFound` otherwise), and take
`size.unwrap_or_default() as usize`.  The backend metadata fetch is the
`getItem` parameter (an `Error::OneDriveError` maps to `GeneralError`). -/
def fileUrl (getItem : Str → Except Unit DriveItem) (path : Str) :
    Except PErr (Str × Nat) :=
  match itemLocationFromPath path with
  | none => .error .invalidPath
  | some loc =>
    match getItem loc with
    | .error _ => .error .generalError
    | .ok item =>
      match item.downloadUrl with
      | none => .error .fileNotFound
      | some url => .ok (url, usizeOfI64 (item.size.getD 0))

/-- `OneDriveProvider::audio_url` (src/lib.rs lines 253-264). -/
def audioUrl (albums : List (Str × Str)) (albumId : Str) (discId trackId : Nat)
    (ext : Str) (getItem : Str → Except Unit DriveItem) :
    Except PErr (Str × Nat) :=
  match alookup albums albumId with
  | some p => fileUrl getItem (format_audio_path p albumId discId trackId ext)
  | none => .error .fileNotFound

/-- `OneDriveProvider::get_audio` (src/lib.rs lines 287-323), the
stream-probed (flac) variant.  Effects are parameters: `getItem` is the
metadata fetch behind `file_url`; `sendResult` the outcome of
`req.send()`, as a function of the request's `Range` header
(`to_range_header` of `reqRange`);
`respContentRange` the response's `Content-Range` header; `probe` the
duration extraction `info::read_duration` (src/info.rs, which propagates its
error through `?`), given the negotiated range. -/
def getAudio (albums : List (Str × Str)) (albumId : Str) (discId trackId : Nat)
    (ext : Str) (getItem : Str → Except Unit DriveItem)
    (reqRange : Range) (sendResult : Option Str → Except Unit Unit)
    (respContentRange : Option Str) (probe : Range → Except PErr Nat) :
    Except PErr AudioOut :=
  match audioUrl albums albumId discId trackId ext getItem with
  | .error e => .error e
  | .ok us =>
    match sendResult (toRangeHeader reqRange) with
    | .error _ => .error .requestError
    | .ok _ =>
      let rng := content_range_to_range respContentRange
      match probe rng with
      | .error e => .error e
      | .ok duration =>
        .ok { extn := ext, size := us.2, duration := duration, range := rng }

/-- `Mp3OnedriveProvider::get_audio_info` (src/mp3.rs lines 47-83): resolves
the path, fetches the item with `$select=audio`, then runs
`info.audio.unwrap().get("duration").unwrap().as_u64().unwrap()` and
`info.size.unwrap()` — each `unwrap()` on a missing value is a panic. -/
def mp3GetAudioInfo (albums : List (Str × Str)) (albumId : Str)
    (discId trackId : Nat) (ext : Str)
    (getItem : Str → Except Unit DriveItem) : POutcome AudioOut :=
  match alookup albums albumId with
  | none => .err .fileNotFound
  | some p =>
    match itemLocationFromPath (format_audio_path p albumId discId trackId ext) with
    | none => .err .invalidPath
    | some loc =>
      match getItem loc with
      | .error _ => .err .generalError
      | .ok item =>
        match item.audioMeta with
        | none => .panicked
        | some a =>
          match a with
          | none => .panicked
          | some d =>
            match d with
            | none => .panicked
            | some duration =>
              match item.size with
              | none => .panicked
              | some size =>
                .ok { extn := ext, size := usizeOfI64 size,
                      duration := duration, range := Range.FULL }

/-- `Mp3OnedriveProvider::get_audio` (src/mp3.rs lines 86-145): same unwraps
on `audio`/`duration`/`size`, then `download_url.ok_or(FileNotFound)`, the
ranged request (`sendResult` applied to `to_range_header` of the requested
range) and the `Content-Range` parse. -/
def mp3GetAudio (albums : List (Str × Str)) (albumId : Str)
    (discId trackId : Nat) (ext : Str)
    (getItem : Str → Except Unit DriveItem) (reqRange : Range)
    (sendResult : Option Str → Except Unit Unit) (respContentRange : Option Str) :
    POutcome AudioOut :=
  match alookup albums albumId with
  | none => .err .fileNotFound
  | some p =>
    match itemLocationFromPath (format_audio_path p albumId discId trackId ext) with
    | none => .err .invalidPath
    | some loc =>
      match getItem loc with
      | .error _ => .err .generalError
      | .ok item =>
        match item.audioMeta with
        | none => .panicked
        | some a =>
          match a with
          | none => .panicked
          | some d =>
            match d with
            | none => .panicked
            | some duration =>
              match item.size with
              | none => .panicked
              | some size =>
                match item.downloadUrl with
                | none => .err .fileNotFound
                | some _ =>
                  match sendResult (toRangeHeader reqRange) with
                  | .error _ => .err .requestError
                  | .ok _ =>
                    .ok { extn := ext, size := usizeOfI64 size,
                          duration := duration,
                          range := content_range_to_range respContentRange }

/-- The token returned by a successful refresh exchange
(`Auth::login_with_refresh_token`).  Per the fixed backend contract (spec §6)
a successful exchange returns a new access token, a new refresh token and an
expiry duration in seconds. -/
structure Token where
  accessToken : Str
  refreshToken : Str
  expiresInSecs : Nat
deriving DecidableEq

/-- The mutable credential state of `OneDriveClient`: the `OneDrive` handle
(identified by its access token and immutable drive location), the
`ClientInfo` (rotating refresh token, static client secret) and the expiry
timestamp (seconds since the epoch). -/
structure ClientState where
  accessToken : Str
  refreshToken : Str
  clientSecret : Str
  location : Str
  expire : Nat
deriving DecidableEq

/-- `OneDriveClient::refresh` (src/lib.rs lines 112-133), sequential view:
after acquiring the `client_info` write lock the expiry is re-checked
(`is_expired` is `now() > expire`); if still expired, the exchange runs with
the current refresh token and client secret.  On error, `?` propagates it
with no field assigned; on success the drive handle is rebuilt with the new
access token, the expiry becomes `expires_in_secs + now` and the refresh
token is rotated.  `now` is the clock reading, `exchange` the identity
endpoint (arguments: refresh token, client secret). -/
def refresh (now : Nat) (exchange : Str → Str → Except Unit Token)
    (s : ClientState) : ClientState × Except Unit Unit :=
  if s.expire < now then
    match exchange s.refreshToken s.clientSecret with
    | .error e => (s, .error e)
    | .ok tok =>
      ({ s with accessToken := tok.accessToken
                refreshToken := tok.refreshToken
                expire := tok.expiresInSecs + now }, .ok ())
  else (s, .ok ())

/-- Observable events of a `OneDriveClient` backend-call method. -/
inductive BOp where
  | listChildren
  | getItemDownloadUrl
  | getItem
deriving DecidableEq

/-- Event trace entries: the `is_expired` check inside `refresh_if_expired`,
a refresh exchange reaching the identity endpoint, and the authorized
backend call itself. -/
inductive BEvent where
  | freshCheck
  | exchange
  | backend (op : BOp)
deriving DecidableEq

/-- `OneDriveClient::refresh_if_expired` (src/lib.rs lines 135-142) as an
event trace, sequentially: check `is_expired` (`now > expire`); when expired,
`refresh` re-checks (same clock reading) and performs the exchange. -/
def refreshIfExpiredEvents (now expire : Nat) : List BEvent :=
  .freshCheck :: (if expire < now then [.exchange] else [])

/-- The common shape of `list_children` / `get_item_download_url` /
`get_item` (src/lib.rs lines 144-177): under `#[cfg(feature = "auto-refresh")]`
the method first runs `refresh_if_expired`, then performs the backend call;
without the feature the freshness check is compiled out. -/
def backendCallEvents (op : BOp) (autoRefresh : Bool) (now expire : Nat) :
    List BEvent :=
  (if autoRefresh then refreshIfExpiredEvents now expire else []) ++ [.backend op]

/-! ### Interleaving model of the concurrent refresh path

Two tasks each run `refresh_if_expired` against one shared `OneDriveClient`.
The shared state is the abstracted expiry flag (`expired`, read atomically by
`is_expired`), the `client_info` write lock, and a counter of refresh
exchanges that reached the backend.  Each task's program counter follows the
code: the lock-free `is_expired` check of `refresh_if_expired`; waiting on
the `client_info` write lock; the re-check of `is_expired` under the lock
(src/lib.rs line 114); the awaited exchange; installing the new token and
expiry and releasing the lock.  In the modelled scenario the clock does not
cross the new expiry and the exchange succeeds. -/

/-- Program counter of one task running `refresh_if_expired`. -/
inductive RPc where
  | check
  | wait
  | recheck
  | exch
  | install
  | finished
deriving DecidableEq

/-- Global state of the two-task refresh scenario. -/
structure RState where
  pc0 : RPc
  pc1 : RPc
  lock : Option Bool
  expired : Bool
  exchanges : Nat
deriving DecidableEq

/-- Program counter of task `i`. -/
def rpc (i : Bool) (s : RState) : RPc := if i then s.pc1 else s.pc0

/-- Update the program counter of task `i`. -/
def setRpc (i : Bool) (p : RPc) (s : RState) : RState :=
  if i then { s with pc1 := p } else { s with pc0 := p }

/-- One atomic step of task `i`, when enabled. -/
def taskStep (i : Bool) (s : RState) : Option RState :=
  match rpc i s with
  | .check => some (setRpc i (if s.expired then .wait else .finished) s)
  | .wait =>
    if s.lock = none then some { setRpc i .recheck s with lock := some i }
    else none
  | .recheck =>
    if s.expired then some (setRpc i .exch s)
    else some { setRpc i .finished s with lock := none }
  | .exch => some { setRpc i .install s with exchanges := s.exchanges + 1 }
  | .install => some { setRpc i .finished s with lock := none, expired := false }
  | .finished => none

/-- All successor states under interleaving. -/
def nexts (s : RState) : List RState :=
  (taskStep false s).toList ++ (taskStep true s).toList

/-- Initial state: both callers start while the credential is expired. -/
def rInit : RState :=
  { pc0 := .check, pc1 := .check, lock := none, expired := true, exchanges := 0 }

/-- States reachable from `rInit` by interleaved steps. -/
inductive RReach : RState → Prop where
  | init : RReach rInit
  | step {s t : RState} : RReach s → t ∈ nexts s → RReach t

/-- Bounded exploration of the reachable state space. -/
def rExplore : Nat → List RState
  | 0 => [rInit]
  | n + 1 =>
    let l := rExplore n
    (l ++ l.flatMap nexts).dedup

/-- The (saturated) reachable state set. -/
def rStates : List RState := rExplore 12

/-- Progress measure: total program-counter advancement of both tasks. -/
def rMeasure (s : RState) : Nat :=
  let v : RPc → Nat
    | .check => 0
    | .wait => 1
    | .recheck => 2
    | .exch => 3
    | .install => 4
    | .finished => 5
  v s.pc0 + v s.pc1

/-- Modelled from the spec: the backend's faithful echo of an emitted range
header — a confirmation of form `"bytes start-end/total"` carrying the same
`start`/`end` numerals as the request and a definite reported `total`
(spec §8 round-trip property, §6 byte-range contract). -/
def faithfulEcho (r : Range) (t : Nat) : Str :=
  'b' :: 'y' :: 't' :: 'e' :: 's' :: ' ' :: (rangeBody r ++ '/' :: toDec t)

/-- Sample listing entry: a 5-character name with a valid parent path. -/
def shortItem : DriveItem :=
  { name := some (str "short")
    parentPath := some (some (str "/drive/root:/music"))
    downloadUrl := none
    size := none
    audioMeta := none }

/-- Sample backend item whose `audio` facet is absent. -/
def itemNoFacet : DriveItem :=
  { name := none
    parentPath := none
    downloadUrl := some (str "u")
    size := some 100
    audioMeta := none }

/-- Sample backend item with a duration but no `size` field (as when the
`$select=audio` projection omits it). -/
def itemNoSize : DriveItem :=
  { name := none
    parentPath := none
    downloadUrl := some (str "u")
    size := none
    audioMeta := some (some (some 180)) }

/-- Sample token returned by a successful refresh exchange. -/
def tok1 : Token :=
  { accessToken := str "a1", refreshToken := str "r1", expiresInSecs := 3600 }

/-- Sample credential state that is expired at clock reading `10`. -/
def cred0 : ClientState :=
  { accessToken := str "a0", refreshToken := str "r0", clientSecret := str "c",
    location := str "d", expire := 5 }

/-- Sample backend item with every field this crate reads present. -/
def itemComplete : DriveItem :=
  { name := some (str "1178e13b-f661-49db-98db-28a04c5583b7")
    parentPath := some (some (str "/drive/root:/music"))
    downloadUrl := some (str "https://dl.example/item")
    size := some 12345
    audioMeta := some (some (some 180)) }

/-- The constant metadata fetch used with `itemComplete`. -/
def getItemComplete : Str → Except Unit DriveItem := fun _ => .ok itemComplete

/-- The `AudioOut` of a successful fetch of `itemComplete` with response
header `"bytes 0-99/200"` and probed duration `42`. -/
def outComplete : AudioOut :=
  { extn := str "flac", size := usizeOfI64 12345, duration := 42,
    range := { start := 0, ending := some 99, total := some 200 } }

/-! ### Decimal printing and parsing lemmas -/

/-- Digit characters are digits and evaluate back to their value. -/
theorem digitChar_spec : ∀ k, k < 10 →
    (Nat.digitChar k).isDigit = true ∧ charVal (Nat.digitChar k) = k := by decide

/-- Appending one digit multiplies the accumulated value by ten. -/
theorem valFold_append (xs : Str) (c : Char) :
    valFold (xs ++ [c]) = 10 * valFold xs + charVal c := by
  simp [valFold, List.foldl_append, Nat.mul_comm]

/-- With enough fuel, `toDecCore` emits a nonempty all-digit string whose
accumulated value is the printed number. -/
theorem toDecCore_spec : ∀ fuel n, n < fuel →
    (toDecCore fuel n).all Char.isDigit = true ∧
    toDecCore fuel n ≠ [] ∧ valFold (toDecCore fuel n) = n := by
  intro fuel
  induction fuel with
  | zero => intro n h; omega
  | succ fuel ih =>
    intro n h
    by_cases h10 : n < 10
    · have hd := digitChar_spec n h10
      refine ⟨?_, ?_, ?_⟩ <;>
        simp [toDecCore, h10, valFold, hd.1, hd.2]
    · have hn0 : 0 < n := by omega
      have hlt : n / 10 < n := Nat.div_lt_self hn0 (by omega)
      have hfuel : n / 10 < fuel := by omega
      obtain ⟨ha, hb, hc⟩ := ih (n / 10) hfuel
      have hd := digitChar_spec (n % 10) (Nat.mod_lt n (by omega))
      refine ⟨?_, ?_, ?_⟩
      · simp [toDecCore, h10, List.all_append, ha, hd.1]
      · simp [toDecCore, h10]
      · rw [show toDecCore (fuel + 1) n =
            toDecCore fuel (n / 10) ++ [Nat.digitChar (n % 10)] by
              simp [toDecCore, h10]]
        rw [valFold_append, hc, hd.2]
        omega

/-- `toDec` prints only digits. -/
theorem toDec_all_digit (n : Nat) : (toDec n).all Char.isDigit = true :=
  (toDecCore_spec (n + 1) n (Nat.lt_succ_self n)).1

/-- `toDec` never prints the empty string. -/
theorem toDec_ne_nil (n : Nat) : toDec n ≠ [] :=
  (toDecCore_spec (n + 1) n (Nat.lt_succ_self n)).2.1

/-- The accumulated value of `toDec n` is `n`. -/
theorem valFold_toDec (n : Nat) : valFold (toDec n) = n :=
  (toDecCore_spec (n + 1) n (Nat.lt_succ_self n)).2.2

/-- A string of digits starts with no sign. -/
theorem stripPlus_of_digits (s : Str) (h : s.all Char.isDigit = true) :
    stripPlus s = s := by
  cases s with
  | nil => rfl
  | cons c rest =>
    have hc : c.isDigit = true := by
      simpa using (List.all_eq_true.1 h c (by simp))
    have : c ≠ '+' := by
      intro hceq; rw [hceq] at hc; simp [Char.isDigit] at hc
    simp [stripPlus, this]

/-- Rust's `u64` parsing inverts decimal printing for 64-bit values. -/
theorem parseU64_toDec (n : Nat) (h : n < 2 ^ 64) :
    parseU64 (toDec n) = some n := by
  have hall := toDec_all_digit n
  have hne := toDec_ne_nil n
  have hval := valFold_toDec n
  rw [parseU64, stripPlus_of_digits _ hall]
  rw [if_pos ⟨hne, hall, by rw [hval]; exact h⟩, hval]

/-- A digit character is not a given non-digit character. -/
theorem digit_ne_of_not_digit {s : Str} (h : s.all Char.isDigit = true)
    {c : Char} (hc : c.isDigit = false) : ∀ x ∈ s, x ≠ c := by
  intro x hx hxc
  have := List.all_eq_true.1 h x hx
  rw [hxc] at this
  simp [hc] at this

/-- `split_once` around an explicit first separator. -/
theorem splitOnce_append (c : Char) (xs ys : Str) (h : ∀ x ∈ xs, x ≠ c) :
    splitOnce c (xs ++ c :: ys) = some (xs, ys) := by
  induction xs with
  | nil => simp [splitOnce]
  | cons a as ih =>
    have ha : a ≠ c := h a (by simp)
    rw [List.cons_append, splitOnce, if_neg ha,
      ih (fun x hx => h x (by simp [hx]))]
    rfl

/-- The empty string parses as no number. -/
theorem parseU64_nil : parseU64 [] = none := by decide

/-- `endingStr` prints only digits. -/
theorem endingStr_all_digit (o : Option Nat) :
    (endingStr o).all Char.isDigit = true := by
  cases o with
  | none => rfl
  | some e => exact toDec_all_digit e

/-- Characterization of the defensive `Content-Range` parse on a
well-separated header: the `start` and `end` fields are read from the digit
blocks around the first `'-'`, the `total` from after the first `'/'`. -/
theorem content_range_digits (a b t' : Str)
    (hA : a.all Char.isDigit = true) (hB : b.all Char.isDigit = true) :
    content_range_to_range
      (some ('b' :: 'y' :: 't' :: 'e' :: 's' :: ' ' :: (a ++ '-' :: (b ++ '/' :: t')))) =
    { start := (parseU64 a).getD 0, ending := parseU64 b, total := parseU64 t' } := by
  have hsplit1 : splitOnce '-' (a ++ '-' :: (b ++ '/' :: t')) = some (a, b ++ '/' :: t') :=
    splitOnce_append '-' a _ (digit_ne_of_not_digit hA (by decide))
  have hsplit2 : splitOnce '/' (b ++ '/' :: t') = some (b, t') :=
    splitOnce_append '/' b _ (digit_ne_of_not_digit hB (by decide))
  have hdrop :
      List.drop 6 ('b' :: 'y' :: 't' :: 'e' :: 's' :: ' ' :: (a ++ '-' :: (b ++ '/' :: t'))) =
      a ++ '-' :: (b ++ '/' :: t') := rfl
  have hlen :
      ¬ ('b' :: 'y' :: 't' :: 'e' :: 's' :: ' ' :: (a ++ '-' :: (b ++ '/' :: t'))).length ≤ 6 := by
    simp [List.length_append]
  simp only [content_range_to_range, if_neg hlen, hdrop, hsplit1, hsplit2,
    Option.getD_some]

/-- `itemLocationFromPath` is the identity on the paths it accepts. -/
theorem itemLocationFromPath_eq {p q : Str} (h : itemLocationFromPath p = some q) :
    q = p := by
  unfold itemLocationFromPath at h
  split at h
  · cases h; rfl
  · cases h

/-- C9.  For every range `r` with a definite total (`r.total = some t`) and
64-bit numerals, `to_range_header` emits the `bytes=start-[end]` header, and
`content_range_to_range` applied to the backend's faithful echo of that
header (`"bytes start-[end]/total"`, same numerals, reported total `t`)
reproduces `r` exactly. -/
theorem C9_to_header_from_header_round_trip (r : Range) (t : Nat)
    (ht : r.total = some t) (hs : r.start < 2 ^ 64)
    (he : ∀ e, r.ending = some e → e < 2 ^ 64) (htb : t < 2 ^ 64) :
    toRangeHeader r = some ('b' :: 'y' :: 't' :: 'e' :: 's' :: '=' :: rangeBody r) ∧
    content_range_to_range (some (faithfulEcho r t)) = r := by
  have hne : r ≠ Range.FULL := by
    intro h; rw [h] at ht; simp [Range.FULL] at ht
  constructor
  · rw [toRangeHeader, if_neg hne]
  · have hshape : faithfulEcho r t =
        'b' :: 'y' :: 't' :: 'e' :: 's' :: ' ' ::
          (toDec r.start ++ '-' :: (endingStr r.ending ++ '/' :: toDec t)) := by
      simp [faithfulEcho, rangeBody, List.append_assoc]
    rw [hshape,
      content_range_digits (toDec r.start) (endingStr r.ending) (toDec t)
        (toDec_all_digit r.start) (endingStr_all_digit r.ending),
      parseU64_toDec r.start hs, parseU64_toDec t htb]
    have hend : parseU64 (endingStr r.ending) = r.ending := by
      cases hre : r.ending with
      | none => exact parseU64_nil
      | some e => exact parseU64_toDec e (he e hre)
    rw [hend, ← ht]
    rfl

/-- Witness for C9 at the spec's own example: range `{start 0, end 99,
total 200}` survives the emit/echo/parse round trip. -/
theorem C9_witness :
    toRangeHeader { start := 0, ending := some 99, total := some 200 } =
      some ('b' :: 'y' :: 't' :: 'e' :: 's' :: '=' ::
        rangeBody { start := 0, ending := some 99, total := some 200 }) ∧
    content_range_to_range
      (some (faithfulEcho { start := 0, ending := some 99, total := some 200 } 200)) =
      { start := 0, ending := some 99, total := some 200 } :=
  C9_to_header_from_header_round_trip _ 200 rfl (by decide)
    (fun e he => by simp at he; omega) (by decide)

/-- C4.  The range-confirmation parse never aborts: an absent header and a
header of at most the 6-character unit-prefix length yield `FULL`; otherwise
the prefix is stripped, the remainder split once on `'-'` then once on `'/'`,
and every numeric field that fails to parse defaults independently (`start`
to 0, `end` and `total` to absent), as on the spec's four vectors and on a
mixed header whose fields fail independently. -/
theorem C4_content_range_defensive :
    content_range_to_range none = Range.FULL ∧
    (∀ s : Str, s.length ≤ 6 → content_range_to_range (some s) = Range.FULL) ∧
    (∀ (s f rest t' tot : Str), 6 < s.length →
      splitOnce '-' (s.drop 6) = some (f, rest) →
      splitOnce '/' rest = some (t', tot) →
      content_range_to_range (some s) =
        { start := (parseU64 f).getD 0, ending := parseU64 t', total := parseU64 tot }) ∧
    content_range_to_range (some (str "bytes 0-99/200")) =
      { start := 0, ending := some 99, total := some 200 } ∧
    content_range_to_range (some (str "bad")) = Range.FULL ∧
    content_range_to_range (some (str "bytes abc-def/ghi")) =
      { start := 0, ending := none, total := none } ∧
    content_range_to_range (some (str "bytes 12-abc/34")) =
      { start := 12, ending := none, total := some 34 } := by
  refine ⟨rfl, ?_, ?_, by decide, by decide, by decide, by decide⟩
  · intro s h
    simp only [content_range_to_range, if_pos h]
  · intro s f rest t' tot hlen h1 h2
    simp only [content_range_to_range, if_neg (by omega : ¬ s.length ≤ 6), h1, h2,
      Option.getD_some]

/-- Witness for C4: the short-header rule and the split rule applied at
concrete headers. -/
theorem C4_witness :
    content_range_to_range (some (str "bad")) = Range.FULL ∧
    content_range_to_range (some (str "bytes 7-8/9")) =
      { start := (parseU64 (str "7")).getD 0, ending := parseU64 (str "8"),
        total := parseU64 (str "9") } :=
  ⟨C4_content_range_defensive.2.1 (str "bad") (by decide),
   C4_content_range_defensive.2.2.1 (str "bytes 7-8/9") (str "7") (str "8/9")
     (str "8") (str "9") (by decide) (by decide) (by decide)⟩

/-- C6.  The path formatters apply the canonical templates: the four
specified vectors hold, and in general an empty base yields no root prefix
while a non-empty base is prepended with a single separator. -/
theorem C6_path_formatters :
    format_audio_path (str "") (str "ALBUM") 1 2 (str "flac") = str "/ALBUM/1/2.flac" ∧
    format_audio_path (str "music") (str "ALBUM") 1 2 (str "flac") =
      str "/music/ALBUM/1/2.flac" ∧
    format_cover_path (str "") (str "ALBUM") none = str "/ALBUM/cover.jpg" ∧
    format_cover_path (str "") (str "ALBUM") (some 2) = str "/ALBUM/2/cover.jpg" ∧
    (∀ (base albumId : Str) (d t : Nat) (ext : Str), base ≠ [] →
      format_audio_path base albumId d t ext =
        '/' :: base ++ format_audio_path [] albumId d t ext) ∧
    (∀ (base albumId : Str) (d : Option Nat), base ≠ [] →
      format_cover_path base albumId d =
        '/' :: base ++ format_cover_path [] albumId d) := by
  refine ⟨by decide, by decide, by decide, by decide, ?_, ?_⟩
  · intro base albumId d t ext h
    simp [format_audio_path, h]
  · intro base albumId d h
    simp [format_cover_path, h]

/-- Witness for C6: the non-empty-base clauses at `base = "music"`. -/
theorem C6_witness :
    format_audio_path (str "music") (str "ALBUM") 1 2 (str "flac") =
      '/' :: str "music" ++ format_audio_path [] (str "ALBUM") 1 2 (str "flac") ∧
    format_cover_path (str "music") (str "ALBUM") (some 2) =
      '/' :: str "music" ++ format_cover_path [] (str "ALBUM") (some 2) :=
  ⟨C6_path_formatters.2.2.2.2.1 (str "music") (str "ALBUM") 1 2 (str "flac")
     (by decide),
   C6_path_formatters.2.2.2.2.2 (str "music") (str "ALBUM") (some 2) (by decide)⟩

/-- C1 (amended).  After `reload()`, the catalog — hence `albums()` — contains
exactly the listing entries that report a name and a string parent path,
regardless of the name's length: no 36-character filter is applied. -/
theorem C1_reload_keeps_all_named_entries (items : List DriveItem) (a : Str) :
    a ∈ (reloadAlbums items).map Prod.fst ↔
    ∃ item ∈ items, item.name = some a ∧ ∃ p, item.parentPath = some (some p) := by
  constructor
  · intro h
    obtain ⟨pr, hpr, hfst⟩ := List.mem_map.1 h
    obtain ⟨item, hitem, hf⟩ := List.mem_filterMap.1 hpr
    cases hn : item.name with
    | none => rw [hn] at hf; cases hf
    | some n =>
      cases hpp : item.parentPath with
      | none => rw [hn, hpp] at hf; cases hf
      | some w =>
        cases hw : w with
        | none => rw [hn, hpp, hw] at hf; cases hf
        | some p =>
          rw [hn, hpp, hw] at hf
          cases hf
          have hna : n = a := hfst
          exact ⟨item, hitem, by rw [hn, hna], p, by rw [hpp, hw]⟩
  · rintro ⟨item, hitem, hname, p, hpp⟩
    exact List.mem_map.2 ⟨(a, parentOf p),
      List.mem_filterMap.2 ⟨item, hitem, by rw [hname, hpp]; rfl⟩, rfl⟩

/-- Witness for C1: the equivalence at a concrete one-entry listing. -/
theorem C1_witness :
    str "short" ∈ (reloadAlbums [shortItem]).map Prod.fst ↔
    ∃ item ∈ [shortItem],
      item.name = some (str "short") ∧ ∃ p, item.parentPath = some (some p) :=
  C1_reload_keeps_all_named_entries [shortItem] (str "short")

/-- Counterexample to C1 as stated: a listing entry whose 5-character name
`"short"` is not 36 characters long is nevertheless kept by `reload()`
(src/lib.rs lines 226-236 filter only on field presence, never on length). -/
theorem C1_counterexample :
    (str "short").length ≠ 36 ∧
    str "short" ∈ (reloadAlbums [shortItem]).map Prod.fst := by decide

/-- C5.  Evaluation of the parent-path extraction at the failing input: for a
parent two levels below the root marker, `collect::<String>()` concatenates
the remaining segments with no separator, storing `"musicalbums"` instead of
the claimed `"music/albums"`; the single-segment case agrees with the spec. -/
theorem C5_separators_lost :
    parentOf (str "/drive/root:/music/albums") = str "musicalbums" ∧
    parentOf (str "/drive/root:/music/albums") ≠ str "music/albums" ∧
    parentOf (str "/drive/root:/music") = str "music" := by decide

/-- C2.  Evaluation of the metadata-queried (mp3) provider at backend items
lacking a mandatory field: when the `audio` facet is absent, or when `size`
is absent (as when the `$select=audio` projection omits it), both
`get_audio_info` and `get_audio` hit an `unwrap()` on `None` and panic
instead of returning a recoverable error. -/
theorem C2_missing_fields_panic :
    mp3GetAudioInfo [(str "album", str "music")] (str "album") 1 1 (str "mp3")
      (fun _ => .ok itemNoFacet) = .panicked ∧
    mp3GetAudioInfo [(str "album", str "music")] (str "album") 1 1 (str "mp3")
      (fun _ => .ok itemNoSize) = .panicked ∧
    mp3GetAudio [(str "album", str "music")] (str "album") 1 1 (str "mp3")
      (fun _ => .ok itemNoFacet) Range.FULL (fun _ => .ok ()) none = .panicked := by
  decide

/-- C3.  In the two-caller interleaving model of the refresh path (expiry
re-checked under the `client_info` write lock, src/lib.rs lines 112-116), from
the state where both callers see an expired credential: execution can only
halt with both callers finished, any halted state has performed exactly one
refresh exchange, and every step strictly increases the joint
program-counter measure (so every run terminates) — exactly one exchange per
expiry epoch, the other caller returning without exchanging. -/
theorem C3_single_refresh_per_epoch (s : RState) (h : RReach s) :
    (nexts s = [] ↔ (s.pc0 = .finished ∧ s.pc1 = .finished)) ∧
    ((s.pc0 = .finished ∧ s.pc1 = .finished) → s.exchanges = 1) ∧
    (∀ u ∈ nexts s, rMeasure s < rMeasure u) := by
  have hclosed : ∀ x ∈ rStates, ∀ y ∈ nexts x, y ∈ rStates := by decide
  have hsub : ∀ x, RReach x → x ∈ rStates := by
    intro x hx
    induction hx with
    | init => decide
    | step _ hmem ih => exact hclosed _ ih _ hmem
  have hall : ∀ x ∈ rStates,
      (nexts x = [] ↔ (x.pc0 = .finished ∧ x.pc1 = .finished)) ∧
      ((x.pc0 = .finished ∧ x.pc1 = .finished) → x.exchanges = 1) ∧
      (∀ u ∈ nexts x, rMeasure x < rMeasure u) := by decide
  exact hall s (hsub s h)

/-- Witness for C3: the property at the initial doubly-expired state. -/
theorem C3_witness :
    (nexts rInit = [] ↔ (rInit.pc0 = .finished ∧ rInit.pc1 = .finished)) ∧
    ((rInit.pc0 = .finished ∧ rInit.pc1 = .finished) → rInit.exchanges = 1) ∧
    (∀ u ∈ nexts rInit, rMeasure rInit < rMeasure u) :=
  C3_single_refresh_per_epoch rInit RReach.init

/-- C7.  When the credential is expired, a failing refresh exchange leaves
the state exactly as before and signals the error, while a successful one
installs the new access token, the rotated refresh token and the new expiry
(the client secret and drive location are untouched by the record update). -/
theorem C7_refresh_atomic (now : Nat) (exchange : Str → Str → Except Unit Token)
    (s : ClientState) (h : s.expire < now) :
    (∀ e, exchange s.refreshToken s.clientSecret = .error e →
      refresh now exchange s = (s, .error e)) ∧
    (∀ tok, exchange s.refreshToken s.clientSecret = .ok tok →
      refresh now exchange s =
        ({ s with accessToken := tok.accessToken
                  refreshToken := tok.refreshToken
                  expire := tok.expiresInSecs + now }, .ok ())) := by
  constructor <;> intro x hx <;> simp [refresh, h, hx]

/-- Witness for C7: both branches at a concrete expired state. -/
theorem C7_witness :
    refresh 10 (fun _ _ => Except.error ()) cred0 = (cred0, .error ()) ∧
    refresh 10 (fun _ _ => Except.ok tok1) cred0 =
      ({ cred0 with accessToken := tok1.accessToken
                    refreshToken := tok1.refreshToken
                    expire := tok1.expiresInSecs + 10 }, .ok ()) :=
  ⟨(C7_refresh_atomic 10 (fun _ _ => Except.error ()) cred0 (by decide)).1 () rfl,
   (C7_refresh_atomic 10 (fun _ _ => Except.ok tok1) cred0 (by decide)).2 tok1 rfl⟩

/-- C8 (amended).  When the crate is compiled with the `auto-refresh` feature,
each of the three authorized backend calls first runs `refresh_if_expired`,
which performs a refresh exchange exactly when the current time exceeds the
stored expiry, before the backend call; without the feature the freshness
check is compiled out entirely. -/
theorem C8_auto_refresh_gated (op : BOp) (now expire : Nat) :
    (expire < now →
      backendCallEvents op true now expire = [.freshCheck, .exchange, .backend op]) ∧
    (¬ expire < now →
      backendCallEvents op true now expire = [.freshCheck, .backend op]) ∧
    backendCallEvents op false now expire = [.backend op] := by
  refine ⟨?_, ?_, rfl⟩ <;> intro h <;>
    simp [backendCallEvents, refreshIfExpiredEvents, h]

/-- Witness for C8: the amended behaviour at a concrete expired clock. -/
theorem C8_witness :
    backendCallEvents .listChildren true 10 5 =
      [.freshCheck, .exchange, .backend .listChildren] :=
  (C8_auto_refresh_gated .listChildren 10 5).1 (by decide)

/-- Counterexample to C8 as stated: without the `auto-refresh` feature,
`list_children` performs no freshness check and no exchange even though the
credential is expired (`now = 10 > expire = 5`). -/
theorem C8_counterexample :
    backendCallEvents .listChildren false 10 5 = [.backend .listChildren] ∧
    BEvent.freshCheck ∉ backendCallEvents .listChildren false 10 5 ∧
    BEvent.exchange ∉ backendCallEvents .listChildren false 10 5 ∧
    5 < 10 := by decide

/-- C10.  Every successful `get_audio` on the stream-probed (flac) provider
reports as `AudioInfo.size` the backend metadata's item size
(`size.unwrap_or_default() as usize`, hence `0` when the field is absent),
for every requested range, response header and probe outcome. -/
theorem C10_size_from_metadata (albums : List (Str × Str)) (albumId : Str)
    (discId trackId : Nat) (ext : Str) (getItem : Str → Except Unit DriveItem)
    (reqRange : Range) (sendResult : Option Str → Except Unit Unit)
    (respContentRange : Option Str) (probe : Range → Except PErr Nat)
    (out : AudioOut)
    (h : getAudio albums albumId discId trackId ext getItem reqRange sendResult
      respContentRange probe = .ok out) :
    ∃ p item, alookup albums albumId = some p ∧
      getItem (format_audio_path p albumId discId trackId ext) = .ok item ∧
      out.size = usizeOfI64 (item.size.getD 0) := by
  cases hlu : alookup albums albumId with
  | none => simp [getAudio, audioUrl, hlu] at h
  | some p =>
    cases hloc : itemLocationFromPath (format_audio_path p albumId discId trackId ext) with
    | none => simp [getAudio, audioUrl, fileUrl, hlu, hloc] at h
    | some loc =>
      cases hitem : getItem loc with
      | error e => simp [getAudio, audioUrl, fileUrl, hlu, hloc, hitem] at h
      | ok item =>
        cases hurl : item.downloadUrl with
        | none => simp [getAudio, audioUrl, fileUrl, hlu, hloc, hitem, hurl] at h
        | some url =>
          cases hsend : sendResult (toRangeHeader reqRange) with
          | error e =>
            simp [getAudio, audioUrl, fileUrl, hlu, hloc, hitem, hurl, hsend] at h
          | ok u =>
            cases hprobe : probe (content_range_to_range respContentRange) with
            | error e =>
              simp [getAudio, audioUrl, fileUrl, hlu, hloc, hitem, hurl, hsend,
                hprobe] at h
            | ok dur =>
              refine ⟨p, item, rfl, ?_, ?_⟩
              · rw [← itemLocationFromPath_eq hloc]; exact hitem
              · simp [getAudio, audioUrl, fileUrl, hlu, hloc, hitem, hurl, hsend,
                  hprobe] at h
                rw [← h]

/-- Witness for C10: a fully successful concrete fetch; the reported size is
the metadata's `12345`, not anything derived from the ranged response. -/
theorem C10_witness :
    ∃ p item,
      alookup [(str "album", str "music")] (str "album") = some p ∧
      getItemComplete (format_audio_path p (str "album") 1 2 (str "flac")) =
        .ok item ∧
      outComplete.size = usizeOfI64 (item.size.getD 0) :=
  C10_size_from_metadata [(str "album", str "music")] (str "album") 1 2
    (str "flac") getItemComplete
    { start := 0, ending := some 99, total := none }
    (fun _ => Except.ok ()) (some (str "bytes 0-99/200")) (fun _ => Except.ok 42)
    outComplete rfl

end AnniOd

